import Mathlib

/-!
Verification development for the geosolver repository, file
`src/geosolver/geometric.py`.  The Python classes `GeometricProblem`,
`GeometricSolver`, `GeometricCluster` and the constraint classes
`DistanceConstraint`, `AngleConstraint`, `FixConstraint` are shallowly
embedded below.  Collaborator modules that are not part of the repository
snapshot (`tolerance`, `intersections`, `vector`, `constraint`, `notify`,
the cluster solvers) are modelled from the spec, as marked in the doc
comments of the corresponding definitions.
-/

namespace Geosolver

/-- A prototype point or solution point: a real coordinate vector
(`vector.vector` in the source, list-like). -/
abbrev Point := List ℝ

/-- A solution / configuration mapping: a Python dict from variable names to
points, embedded as an association list where the first matching key wins. -/
abbrev Sol := List (String × Point)

/-- Dict update `d[k] = v`: the new binding shadows (and drops) any previous
binding of the same key. -/
def upd {α β : Type} [BEq α] (k : α) (v : β) (l : List (α × β)) : List (α × β) :=
  (k, v) :: l.filter (fun p => !(p.1 == k))

/-- Dict lookup with Python `d[k]` semantics on the keys we use; returns `[]`
for a missing key (the claims below never read missing keys). -/
def lk (sol : Sol) (v : String) : Point :=
  (sol.lookup v).getD []

/-- Modelled from the spec (§6.1): `tol_eq(x, y)` from the `tolerance`
module is an epsilon tolerance comparison, used uniformly; the epsilon is a
small positive constant. -/
def tol_eq (x y : ℝ) : Prop := |x - y| ≤ 1 / 1000000

/-- Componentwise vector difference (`vector` module, modelled from the
spec: vectors are real coordinate lists). -/
def vsub (p q : Point) : Point := List.zipWith (fun a b => a - b) p q

/-- Dot product of two coordinate vectors. -/
def dotp (p q : Point) : ℝ := (List.zipWith (fun a b => a * b) p q).sum

/-- Euclidean norm of a coordinate vector. -/
noncomputable def vlen (p : Point) : ℝ := Real.sqrt (dotp p p)

/-- The 2D cross product (z component) of two vectors. -/
def cross2 (p q : Point) : ℝ := p.getD 0 0 * q.getD 1 0 - p.getD 1 0 * q.getD 0 0

/-- Modelled from the spec (§6.1): `distance_2p` from the `intersections`
module is the Euclidean distance of two points. -/
noncomputable def distance_2p (p q : Point) : ℝ := vlen (vsub p q)

/-- Two-argument arctangent giving the signed angle of the vector `(x, y)`,
in `(-pi, pi]`, realised as the complex argument. -/
noncomputable def atan2 (y x : ℝ) : ℝ := Complex.arg (Complex.ofReal x + Complex.ofReal y * Complex.I)

/-- Modelled from the spec (§6.1): `angle_3p(a, b, c)` from the
`intersections` module is the angle at `b` in the triangle `a b c`; it is in
`[0, pi]` in 3D and is the signed angle in `(-pi, pi]` in 2D (consistent
with the 2D angle parameter sign convention), and an undefined angle (a leg
of zero length) is signalled as an absent value. -/
noncomputable def angle_3p (a b c : Point) : Option ℝ :=
  let u := vsub a b
  let v := vsub c b
  if dotp u u = 0 ∨ dotp v v = 0 then none
  else if 3 ≤ a.length then
    some (Real.arccos (dotp u v / (vlen u * vlen v)))
  else
    some (atan2 (cross2 u v) (dotp u v))

/-- The payload of one constraint object: the tagged variants accepted by
`GeometricProblem.add_constraint` plus `unsup` for an object of any other
class (the final `else` branch of `add_constraint`). -/
inductive ConData : Type
  | dist (a b : String) (d : ℝ)
  | ang (a b c : String) (th : ℝ)
  | fixc (v : String) (p : Point)
  | sel (vars : List String)
  | unsup (vars : List String)

/-- A constraint object: Python object identity is embedded as an integer
handle `cid`; `in`-tests on constraint lists compare these handles. -/
structure GCon : Type where
  cid : Nat
  dat : ConData

/-- The `variables()` method of each constraint class. -/
def conVars : ConData → List String
  | .dist a b _ => [a, b]
  | .ang a b c _ => [a, b, c]
  | .fixc v _ => [v]
  | .sel vs => vs
  | .unsup vs => vs

/-- `DistanceConstraint.satisfied` (source lines 638-643): the distance of
the two mapped points equals the parameter within tolerance. -/
noncomputable def distSatisfied (a b : String) (d : ℝ) (sol : Sol) : Prop :=
  tol_eq (distance_2p (lk sol a) (lk sol b)) d

/-- `AngleConstraint.satisfied` (source lines 667-684): an undefined angle
is unsatisfied; otherwise the measured angle is compared within tolerance
against the parameter, taken absolute when the points have three or more
coordinates. -/
noncomputable def angSatisfied (a b c : String) (th : ℝ) (sol : Sol) : Prop :=
  match angle_3p (lk sol a) (lk sol b) (lk sol c) with
  | none => False
  | some m => tol_eq m (if 3 ≤ (lk sol a).length then |th| else th)

/-- `FixConstraint.satisfied` (source lines 612-616): only coordinates 0
and 1 are compared against the parameter, whatever the problem dimension.
The source spells the second parameter read `self.value`; the only value
attribute in the class hierarchy is `ParametricConstraint._value` (the spec
§9 reads the comparison the same way), so it is embedded as `_value`. -/
def fixSatisfied (v : String) (p : Point) (sol : Sol) : Prop :=
  tol_eq ((lk sol v).getD 0 0) (p.getD 0 0) ∧ tol_eq ((lk sol v).getD 1 0) (p.getD 1 0)

/-- Dispatch of `con.satisfied(solution)` on the constraint class.  The
predicate of a `SelectionConstraint` (module `selconstr`, out of scope per
spec §3) is an arbitrary predicate `es` on the variable tuple and the
solution, and likewise for foreign constraint objects. -/
noncomputable def Satisfied (es : ConData → Sol → Prop) : ConData → Sol → Prop
  | .dist a b d, sol => distSatisfied a b d sol
  | .ang a b c th, sol => angSatisfied a b c th sol
  | .fixc v p, sol => fixSatisfied v p sol
  | .sel vs, sol => es (.sel vs) sol
  | .unsup vs, sol => es (.unsup vs) sol

/-- The Boolean `solved` computed by the inner loop of
`GeometricProblem.verify`: every variable of the constraint is a key of the
solution dict. -/
def solvedB (d : ConData) (sol : Sol) : Bool :=
  (conVars d).all (fun v => (sol.lookup v).isSome)

/-- The state of a `GeometricProblem` (and its `ConstraintGraph`, module
`constraint`, modelled from the spec §2: it stores variables and
constraints): the prototype dict, the graph's variable vertices, the
constraint list, and the set of constraints whose parameter notifications
the problem listens to (`con.add_listener(self)` in the source, recorded
here as the constraint handles). -/
structure PState : Type where
  prototype : List (String × Point)
  cgVars : List String
  cons : List GCon
  subscribed : List Nat

/-- `GeometricProblem.verify` (source lines 151-170): a `None` solution is
unsatisfied; otherwise a flag starting at true is conjoined, constraint by
constraint, with "all variables present and satisfied". -/
noncomputable def VerifyP (es : ConData → Sol → Prop) (s : PState) (osol : Option Sol) : Prop :=
  match osol with
  | none => False
  | some sol =>
      s.cons.foldl (fun sat con => sat ∧ (solvedB con.dat sol = true ∧ Satisfied es con.dat sol)) True

/-- The `isinstance(c, DistanceConstraint)` test. -/
def isDist : ConData → Bool
  | .dist _ _ _ => true
  | _ => false

/-- The `isinstance(c, AngleConstraint)` test. -/
def isAng : ConData → Bool
  | .ang _ _ _ _ => true
  | _ => false

/-- The `isinstance(c, FixConstraint)` test. -/
def isFix : ConData → Bool
  | .fixc _ _ => true
  | _ => false

/-- `ConstraintGraph.get_constraints_on(v)` (module `constraint`, modelled
from the spec §2: the graph stores constraints with adjacency): the
constraints whose variable tuple contains `v`. -/
def constraintsOn (cons : List GCon) (v : String) : List GCon :=
  cons.filter (fun c => (conVars c.dat).contains v)

/-- A Python `x in list-of-constraints` test: object identity, embedded as
handle equality. -/
def memC (x : GCon) (l : List GCon) : Bool :=
  l.any (fun y => y.cid == x.cid)

/-- The shared tail of `get_distance` / `get_angle` / `get_fix` (source
lines 118-123, 133-138, 144-149): raise `multiple constraints found` for
two or more candidates, return the single candidate, or return `None`. -/
def pickOne (l : List GCon) : Except String (Option GCon) :=
  if l.length > 1 then .error "multiple constraints found"
  else
    match l with
    | [x] => .ok (some x)
    | _ => .ok none

/-- The candidate list built by `GeometricProblem.get_distance` (source
lines 112-117): distance constraints on both points. -/
def distCandidates (cons : List GCon) (a b : String) : List GCon :=
  let on_a := constraintsOn cons a
  let on_b := constraintsOn cons b
  let on_ab := on_a.filter (fun c => memC c on_a && memC c on_b)
  on_ab.filter (fun c => isDist c.dat)

/-- `GeometricProblem.get_distance` (source lines 112-123). -/
def get_distance (cons : List GCon) (a b : String) : Except String (Option GCon) :=
  pickOne (distCandidates cons a b)

/-- The candidate list built by `GeometricProblem.get_angle` (source lines
125-132): angle constraints on all three points whose second variable (the
apex) is `b`. -/
def angCandidates (cons : List GCon) (a b c : String) : List GCon :=
  let on_a := constraintsOn cons a
  let on_b := constraintsOn cons b
  let on_c := constraintsOn cons c
  let on_abc := on_a.filter (fun x => memC x on_a && memC x on_b && memC x on_c)
  let angles := on_abc.filter (fun x => isAng x.dat)
  angles.filter (fun x => (conVars x.dat).getD 1 "" == b)

/-- `GeometricProblem.get_angle` (source lines 125-138). -/
def get_angle (cons : List GCon) (a b c : String) : Except String (Option GCon) :=
  pickOne (angCandidates cons a b c)

/-- The candidate list built by `GeometricProblem.get_fix` (source lines
140-143): fix constraints on the point. -/
def fixCandidates (cons : List GCon) (v : String) : List GCon :=
  (constraintsOn cons v).filter (fun c => isFix c.dat)

/-- `GeometricProblem.get_fix` (source lines 140-149). -/
def get_fix (cons : List GCon) (v : String) : Except String (Option GCon) :=
  pickOne (fixCandidates cons v)

/-- The check `for var in con.variables(): if var not in self.prototype`
at the head of each `add_constraint` branch. -/
def allVarsKnown (s : PState) (d : ConData) : Bool :=
  (conVars d).all (fun v => (s.prototype.lookup v).isSome)

/-- The authoring calls of `GeometricProblem` exercised by the claims. -/
inductive POp : Type
  | addPoint (v : String) (pos : Point)
  | setPoint (v : String) (pos : Point)
  | getPoint (v : String)
  | remPoint (v : String)
  | addCon (con : GCon)
  | remCon (con : GCon)

/-- One `GeometricProblem` method call (source lines 50-71, 76-110,
172-187), as a pair of the raised error (if any) and the state when control
returns to the caller.  Mutations are performed exactly where the source
performs them, so a branch that raises reproduces the state the object has
at the `raise` statement. -/
def applyOp (s : PState) (op : POp) : Option String × PState :=
  match op with
  | .addPoint v pos =>
      if (s.prototype.lookup v).isSome then (some "point already in problem", s)
      else (none, { s with prototype := s.prototype ++ [(v, pos)], cgVars := s.cgVars ++ [v] })
  | .setPoint v pos =>
      if (s.prototype.lookup v).isSome then (none, { s with prototype := upd v pos s.prototype })
      else (some "unknown point variable", s)
  | .getPoint v =>
      if (s.prototype.lookup v).isSome then (none, s) else (some "unknown point variable", s)
  | .remPoint v =>
      if (s.prototype.lookup v).isSome then
        (none, { s with prototype := s.prototype.filter (fun p => !(p.1 == v)),
                        cgVars := s.cgVars.filter (fun w => !(w == v)) })
      else (some "unknown point variable", s)
  | .addCon con =>
      match con.dat with
      | .dist a b _ =>
          if allVarsKnown s con.dat then
            match get_distance s.cons a b with
            | .error e => (some e, s)
            | .ok (some _) => (some "distance already in problem", s)
            | .ok none =>
                (none, { s with subscribed := s.subscribed ++ [con.cid],
                                cons := s.cons ++ [con] })
          else (some "point variable not in problem", s)
      | .ang a b c _ =>
          if allVarsKnown s con.dat then
            match get_angle s.cons a b c with
            | .error e => (some e, s)
            | .ok (some _) => (some "angle already in problem", s)
            | .ok none =>
                (none, { s with subscribed := s.subscribed ++ [con.cid],
                                cons := s.cons ++ [con] })
          else (some "point variable not in problem", s)
      | .sel _ =>
          if allVarsKnown s con.dat then (none, { s with cons := s.cons ++ [con] })
          else (some "point variable not in problem", s)
      | .fixc v _ =>
          if allVarsKnown s con.dat then
            match get_fix s.cons v with
            | .error e => (some e, s)
            | .ok (some _) => (some "fix already in problem", s)
            | .ok none => (none, { s with cons := s.cons ++ [con] })
          else (some "point variable not in problem", s)
      | .unsup _ => (some "unsupported constraint type", s)
  | .remCon con =>
      if memC con s.cons then
        (none, { s with cons := s.cons.filter (fun c => !(c.cid == con.cid)) })
      else (some "no constraint in problem", s)

/-- Whether a constraint object is a `ParametricConstraint` (the
`isinstance` test in `GeometricProblem.receive_notify`, source line 191). -/
def isParametric : ConData → Bool
  | .dist _ _ _ => true
  | .ang _ _ _ _ => true
  | .fixc _ _ => true
  | _ => false

/-- The events the problem re-emits when `set_parameter(value)` is called
on a constraint: `ParametricConstraint.set_parameter` (source lines
593-596) notifies the constraint's listeners, and
`GeometricProblem.receive_notify` (source lines 189-194) re-emits
`("set_parameter", (constraint, value))` when the problem is among those
listeners, which it is exactly when `add_constraint` subscribed it. -/
def reemitted (s : PState) (con : GCon) (value : ℝ) : List (Nat × ℝ) :=
  if s.subscribed.contains con.cid && isParametric con.dat then [(con.cid, value)] else []

/-- Conjunction folds over a list are equivalent to bounded universal
quantification. -/
theorem foldl_and_iff {α : Type} (p : α → Prop) (l : List α) (init : Prop) :
    l.foldl (fun acc x => acc ∧ p x) init ↔ (init ∧ ∀ x ∈ l, p x) := by
  induction l generalizing init with
  | nil => simp
  | cons y ys ih =>
      simp only [List.foldl_cons, ih, List.mem_cons]
      constructor
      · rintro ⟨⟨hi, hy⟩, hall⟩
        exact ⟨hi, by rintro x (rfl | hx); exact hy; exact hall x hx⟩
      · rintro ⟨hi, hall⟩
        exact ⟨⟨hi, hall y (Or.inl rfl)⟩, fun x hx => hall x (Or.inr hx)⟩

/-- Claim C1: for every non-None solution mapping, `GeometricProblem.verify`
holds if and only if every constraint of the problem has all of its
variables present in the mapping and its `satisfied` predicate holds on the
mapping. -/
theorem verify_iff_all_satisfied (es : ConData → Sol → Prop) (s : PState) (sol : Sol) :
    VerifyP es s (some sol) ↔
      ∀ con ∈ s.cons, solvedB con.dat sol = true ∧ Satisfied es con.dat sol := by
  show s.cons.foldl _ True ↔ _
  rw [foldl_and_iff (fun con => solvedB con.dat sol = true ∧ Satisfied es con.dat sol) s.cons True]
  simp

/-- Claim C10: `GeometricProblem.verify(None)` is false for every problem
state, with no error raised (the constraint loop is never entered). -/
theorem verify_none_false (es : ConData → Sol → Prop) (s : PState) :
    VerifyP es s none ↔ False := Iff.rfl


/-- Membership in `get_constraints_on` unfolded. -/
theorem mem_constraintsOn (cons : List GCon) (v : String) (x : GCon) :
    x ∈ constraintsOn cons v ↔ x ∈ cons ∧ v ∈ conVars x.dat := by
  simp [constraintsOn, List.mem_filter, List.elem_iff, List.contains]

/-- Membership in the candidate list of `get_angle`, for a constraint list
with distinct handles: exactly the angle constraints mentioning all three
points whose apex (second variable) is `b`. -/
theorem mem_angCandidates (cons : List GCon) (a b c : String) (d : GCon)
    (hnd : (cons.map GCon.cid).Nodup) :
    d ∈ angCandidates cons a b c ↔
      d ∈ cons ∧ isAng d.dat = true ∧ a ∈ conVars d.dat ∧ b ∈ conVars d.dat ∧
        c ∈ conVars d.dat ∧ (conVars d.dat).getD 1 "" = b := by
  have hmemC : ∀ (x : GCon) (v : String), x ∈ cons →
      ((memC x (constraintsOn cons v) = true) ↔ v ∈ conVars x.dat) := by
    intro x v hx
    constructor
    · intro h
      rcases List.any_eq_true.1 h with ⟨y, hy, hbeq⟩
      rcases (mem_constraintsOn cons v y).1 hy with ⟨hycons, hyv⟩
      have hyx : y = x :=
        List.inj_on_of_nodup_map hnd hycons hx (beq_iff_eq.1 hbeq)
      exact hyx ▸ hyv
    · intro h
      refine List.any_eq_true.2 ⟨x, (mem_constraintsOn cons v x).2 ⟨hx, h⟩, ?_⟩
      simp
  constructor
  · intro hd
    simp only [angCandidates, List.mem_filter, Bool.and_eq_true] at hd
    obtain ⟨⟨⟨hona, ⟨hma, hmb⟩, hmc⟩, hang⟩, hapex⟩ := hd
    obtain ⟨hdcons, hva⟩ := (mem_constraintsOn cons a d).1 hona
    exact ⟨hdcons, hang, hva, (hmemC d b hdcons).1 hmb, (hmemC d c hdcons).1 hmc,
      beq_iff_eq.1 hapex⟩
  · rintro ⟨hdcons, hang, hva, hvb, hvc, hapex⟩
    simp only [angCandidates, List.mem_filter, Bool.and_eq_true]
    exact ⟨⟨⟨(mem_constraintsOn cons a d).2 ⟨hdcons, hva⟩, ⟨(hmemC d a hdcons).2 hva,
      (hmemC d b hdcons).2 hvb⟩, (hmemC d c hdcons).2 hvc⟩, hang⟩, beq_iff_eq.2 hapex⟩

/-- Claim C7 counterexample: in a problem holding only
`AngleConstraint("a","b","c",1)`, adding `AngleConstraint("c","b","a",2)`
(same apex, reversed ends) is rejected with the duplicate-constraint error,
whereas the claim says it is accepted. -/
theorem reversed_angle_rejected :
    (applyOp ⟨[("a", [0, 0]), ("b", [1, 0]), ("c", [0, 1])], ["a", "b", "c"],
              [⟨0, ConData.ang "a" "b" "c" 1⟩], []⟩
      (POp.addCon ⟨1, ConData.ang "c" "b" "a" 2⟩)).1 = some "angle already in problem" := by
  decide

/-- Claim C7 (amended): in a problem whose constraints have distinct
handles and at most one matching candidate, adding an
`AngleConstraint(a,b,c,th)` whose variables are all present fails with the
duplicate-constraint error if and only if some existing `AngleConstraint`
has apex `b` and mentions all of `a`, `b` and `c`; in particular the
reversed triple `(c,b,a)` is also rejected, not accepted. -/
theorem add_angle_duplicate_iff (s : PState) (cid : Nat) (a b c : String) (th : ℝ)
    (hvars : allVarsKnown s (ConData.ang a b c th) = true)
    (hnd : (s.cons.map GCon.cid).Nodup)
    (huniq : (angCandidates s.cons a b c).length ≤ 1) :
    (applyOp s (POp.addCon ⟨cid, ConData.ang a b c th⟩)).1 = some "angle already in problem" ↔
      ∃ d ∈ s.cons, isAng d.dat = true ∧ (conVars d.dat).getD 1 "" = b ∧
        a ∈ conVars d.dat ∧ b ∈ conVars d.dat ∧ c ∈ conVars d.dat := by
  cases hcand : angCandidates s.cons a b c with
  | nil =>
      have hLHS : (applyOp s (POp.addCon ⟨cid, ConData.ang a b c th⟩)).1 = none := by
        simp [applyOp, hvars, get_angle, hcand, pickOne]
      rw [hLHS]
      constructor
      · intro h; cases h
      · rintro ⟨d, hdcons, hang, hapex, hva, hvb, hvc⟩
        have hmem : d ∈ angCandidates s.cons a b c :=
          (mem_angCandidates s.cons a b c d hnd).2 ⟨hdcons, hang, hva, hvb, hvc, hapex⟩
        rw [hcand] at hmem
        cases hmem
  | cons x xs =>
      cases xs with
      | nil =>
          have hLHS : (applyOp s (POp.addCon ⟨cid, ConData.ang a b c th⟩)).1 =
              some "angle already in problem" := by
            simp [applyOp, hvars, get_angle, hcand, pickOne]
          rw [hLHS]
          constructor
          · intro _
            have hx : x ∈ angCandidates s.cons a b c := by
              rw [hcand]; exact List.mem_cons_self x []
            obtain ⟨hxcons, hang, hva, hvb, hvc, hapex⟩ :=
              (mem_angCandidates s.cons a b c x hnd).1 hx
            exact ⟨x, hxcons, hang, hapex, hva, hvb, hvc⟩
          · intro _; rfl
      | cons y ys =>
          rw [hcand] at huniq
          simp [List.length_cons] at huniq

/-- Claim C7 witness: a concrete duplicate addition rejected by
`add_angle_duplicate_iff`. -/
theorem add_angle_duplicate_iff_witness :
    (applyOp ⟨[("a", [0, 0]), ("b", [1, 0]), ("c", [0, 1])], ["a", "b", "c"],
              [⟨0, ConData.ang "a" "b" "c" 1⟩], []⟩
      (POp.addCon ⟨1, ConData.ang "a" "b" "c" 5⟩)).1 = some "angle already in problem" :=
  (add_angle_duplicate_iff
      ⟨[("a", [0, 0]), ("b", [1, 0]), ("c", [0, 1])], ["a", "b", "c"],
        [⟨0, ConData.ang "a" "b" "c" 1⟩], []⟩ 1 "a" "b" "c" 5
      (by decide) (by decide) (by decide)).mpr
    ⟨⟨0, ConData.ang "a" "b" "c" 1⟩, List.mem_cons_self _ _, rfl, rfl,
      by decide, by decide, by decide⟩

/-- The invalid authoring calls enumerated by claim C8: adding an existing
point, touching an unknown point, adding a constraint with a missing
variable or duplicating an existing distance/angle/fix or of an
unsupported class, and removing an absent constraint.  The duplicate
conditions are the ones `get_distance` / `get_angle` / `get_fix` test. -/
def Invalid (s : PState) (op : POp) : Prop :=
  match op with
  | .addPoint v _ => (s.prototype.lookup v).isSome = true
  | .setPoint v _ => (s.prototype.lookup v).isSome = false
  | .getPoint v => (s.prototype.lookup v).isSome = false
  | .remPoint v => (s.prototype.lookup v).isSome = false
  | .addCon con =>
      (∃ v ∈ conVars con.dat, (s.prototype.lookup v).isSome = false) ∨
      (match con.dat with
       | .dist a b _ =>
           ∃ d ∈ s.cons, isDist d.dat = true ∧ a ∈ conVars d.dat ∧ b ∈ conVars d.dat
       | .ang a b c _ =>
           ∃ d ∈ s.cons, isAng d.dat = true ∧ a ∈ conVars d.dat ∧ b ∈ conVars d.dat ∧
             c ∈ conVars d.dat ∧ (conVars d.dat).getD 1 "" = b
       | .fixc v _ => ∃ d ∈ s.cons, isFix d.dat = true ∧ v ∈ conVars d.dat
       | .sel _ => False
       | .unsup _ => True)
  | .remCon con => ∀ d ∈ s.cons, d.cid ≠ con.cid

/-- A missing constraint variable falsifies the presence check. -/
theorem allVarsKnown_eq_false (s : PState) (d : ConData)
    (h : ∃ v ∈ conVars d, (s.prototype.lookup v).isSome = false) :
    allVarsKnown s d = false := by
  rcases h with ⟨v, hv, hnone⟩
  apply Bool.eq_false_iff.2
  intro hall
  have := List.all_eq_true.1 hall v hv
  rw [hnone] at this
  cases this

/-- `pickOne` of a nonempty candidate list never reports "no constraint". -/
theorem pickOne_of_ne_nil (l : List GCon) (h : l ≠ []) :
    pickOne l = Except.error "multiple constraints found" ∨ ∃ x, pickOne l = Except.ok (some x) := by
  match l with
  | [] => exact absurd rfl h
  | [x] => right; exact ⟨x, rfl⟩
  | x :: y :: ys => left; simp [pickOne]

/-- A distance constraint on both points is a `get_distance` candidate. -/
theorem mem_distCandidates_of (cons : List GCon) (a b : String) (d : GCon)
    (hd : d ∈ cons) (hk : isDist d.dat = true) (hva : a ∈ conVars d.dat)
    (hvb : b ∈ conVars d.dat) : d ∈ distCandidates cons a b := by
  have hself : ∀ v ∈ conVars d.dat, memC d (constraintsOn cons v) = true := by
    intro v hv
    exact List.any_eq_true.2 ⟨d, (mem_constraintsOn cons v d).2 ⟨hd, hv⟩, by simp⟩
  simp only [distCandidates, List.mem_filter, Bool.and_eq_true]
  exact ⟨⟨(mem_constraintsOn cons a d).2 ⟨hd, hva⟩, hself a hva, hself b hvb⟩, hk⟩

/-- An angle constraint on all three points with apex `b` is a `get_angle`
candidate. -/
theorem mem_angCandidates_of (cons : List GCon) (a b c : String) (d : GCon)
    (hd : d ∈ cons) (hk : isAng d.dat = true) (hva : a ∈ conVars d.dat)
    (hvb : b ∈ conVars d.dat) (hvc : c ∈ conVars d.dat)
    (hapex : (conVars d.dat).getD 1 "" = b) : d ∈ angCandidates cons a b c := by
  have hself : ∀ v ∈ conVars d.dat, memC d (constraintsOn cons v) = true := by
    intro v hv
    exact List.any_eq_true.2 ⟨d, (mem_constraintsOn cons v d).2 ⟨hd, hv⟩, by simp⟩
  simp only [angCandidates, List.mem_filter, Bool.and_eq_true]
  exact ⟨⟨⟨(mem_constraintsOn cons a d).2 ⟨hd, hva⟩, ⟨hself a hva, hself b hvb⟩, hself c hvc⟩,
    hk⟩, beq_iff_eq.2 hapex⟩

/-- A fix constraint on the point is a `get_fix` candidate. -/
theorem mem_fixCandidates_of (cons : List GCon) (v : String) (d : GCon)
    (hd : d ∈ cons) (hk : isFix d.dat = true) (hv : v ∈ conVars d.dat) :
    d ∈ fixCandidates cons v := by
  simp only [fixCandidates, List.mem_filter]
  exact ⟨(mem_constraintsOn cons v d).2 ⟨hd, hv⟩, hk⟩

/-- Claim C8: every invalid authoring call raises an error and returns with
the prototype map, the constraint graph and all other problem state exactly
as they were before the call. -/
theorem invalid_ops_raise_and_preserve (s : PState) (op : POp) (h : Invalid s op) :
    (applyOp s op).1.isSome = true ∧ (applyOp s op).2 = s := by
  cases op with
  | addPoint v pos =>
      simp only [Invalid] at h
      simp [applyOp, h]
  | setPoint v pos =>
      simp only [Invalid] at h
      simp [applyOp, h]
  | getPoint v =>
      simp only [Invalid] at h
      simp [applyOp, h]
  | remPoint v =>
      simp only [Invalid] at h
      simp [applyOp, h]
  | remCon con =>
      simp only [Invalid] at h
      have hmem : memC con s.cons = false := by
        apply Bool.eq_false_iff.2
        intro hany
        rcases List.any_eq_true.1 hany with ⟨d, hd, hbeq⟩
        exact h d hd (beq_iff_eq.1 hbeq)
      simp [applyOp, hmem]
  | addCon con =>
      obtain ⟨cid, dat⟩ := con
      simp only [Invalid] at h
      cases dat with
      | dist a b dd =>
          by_cases hav : allVarsKnown s (ConData.dist a b dd) = true
          · have hdup : ∃ d ∈ s.cons, isDist d.dat = true ∧ a ∈ conVars d.dat ∧
                b ∈ conVars d.dat := by
              rcases h with hmiss | hdup
              · rcases hmiss with ⟨v, hv, hnone⟩
                have := List.all_eq_true.1 hav v hv
                rw [hnone] at this; cases this
              · exact hdup
            rcases hdup with ⟨d, hd, hk, hva, hvb⟩
            have hne : distCandidates s.cons a b ≠ [] :=
              List.ne_nil_of_mem (mem_distCandidates_of s.cons a b d hd hk hva hvb)
            rcases pickOne_of_ne_nil _ hne with herr | ⟨x, hx⟩
            · simp [applyOp, hav, get_distance, herr]
            · simp [applyOp, hav, get_distance, hx]
          · have hav' : allVarsKnown s (ConData.dist a b dd) = false :=
              Bool.eq_false_iff.2 hav
            simp [applyOp, hav']
      | ang a b c th =>
          by_cases hav : allVarsKnown s (ConData.ang a b c th) = true
          · have hdup : ∃ d ∈ s.cons, isAng d.dat = true ∧ a ∈ conVars d.dat ∧
                b ∈ conVars d.dat ∧ c ∈ conVars d.dat ∧ (conVars d.dat).getD 1 "" = b := by
              rcases h with hmiss | hdup
              · rcases hmiss with ⟨v, hv, hnone⟩
                have := List.all_eq_true.1 hav v hv
                rw [hnone] at this; cases this
              · exact hdup
            rcases hdup with ⟨d, hd, hk, hva, hvb, hvc, hapex⟩
            have hne : angCandidates s.cons a b c ≠ [] :=
              List.ne_nil_of_mem (mem_angCandidates_of s.cons a b c d hd hk hva hvb hvc hapex)
            rcases pickOne_of_ne_nil _ hne with herr | ⟨x, hx⟩
            · simp [applyOp, hav, get_angle, herr]
            · simp [applyOp, hav, get_angle, hx]
          · have hav' : allVarsKnown s (ConData.ang a b c th) = false :=
              Bool.eq_false_iff.2 hav
            simp [applyOp, hav']
      | fixc v p =>
          by_cases hav : allVarsKnown s (ConData.fixc v p) = true
          · have hdup : ∃ d ∈ s.cons, isFix d.dat = true ∧ v ∈ conVars d.dat := by
              rcases h with hmiss | hdup
              · rcases hmiss with ⟨w, hw, hnone⟩
                have := List.all_eq_true.1 hav w hw
                rw [hnone] at this; cases this
              · exact hdup
            rcases hdup with ⟨d, hd, hk, hv⟩
            have hne : fixCandidates s.cons v ≠ [] :=
              List.ne_nil_of_mem (mem_fixCandidates_of s.cons v d hd hk hv)
            rcases pickOne_of_ne_nil _ hne with herr | ⟨x, hx⟩
            · simp [applyOp, hav, get_fix, herr]
            · simp [applyOp, hav, get_fix, hx]
          · have hav' : allVarsKnown s (ConData.fixc v p) = false :=
              Bool.eq_false_iff.2 hav
            simp [applyOp, hav']
      | sel vs =>
          rcases h with hmiss | hfalse
          · have hav' : allVarsKnown s (ConData.sel vs) = false :=
              allVarsKnown_eq_false s (ConData.sel vs) hmiss
            simp [applyOp, hav']
          · cases hfalse
      | unsup vs =>
          simp [applyOp]

/-- Claim C8 witness: adding an already-present point to a concrete
one-point problem raises and leaves the state untouched. -/
theorem invalid_ops_raise_and_preserve_witness :
    Invalid ⟨[("a", [0, 0])], ["a"], [], []⟩ (POp.addPoint "a" [1, 1]) ∧
      ((applyOp ⟨[("a", [0, 0])], ["a"], [], []⟩ (POp.addPoint "a" [1, 1])).1.isSome = true ∧
        (applyOp ⟨[("a", [0, 0])], ["a"], [], []⟩ (POp.addPoint "a" [1, 1])).2 =
          ⟨[("a", [0, 0])], ["a"], [], []⟩) :=
  ⟨rfl, invalid_ops_raise_and_preserve ⟨[("a", [0, 0])], ["a"], [], []⟩
    (POp.addPoint "a" [1, 1]) rfl⟩

/-- Claim C9 counterexample: a `FixConstraint` whose variable is present is
accepted by `add_constraint`, but the problem never subscribes to it
(`con.add_listener(self)` is missing from the fix branch, source lines
102-108), so a later `set_parameter` on it re-emits nothing, whereas the
claim says every parametric constraint is re-emitted. -/
theorem fix_parameter_not_reemitted :
    (applyOp ⟨[("a", [0, 0])], ["a"], [], []⟩
        (POp.addCon ⟨0, ConData.fixc "a" [0, 0]⟩)).1 = none ∧
      reemitted (applyOp ⟨[("a", [0, 0])], ["a"], [], []⟩
          (POp.addCon ⟨0, ConData.fixc "a" [0, 0]⟩)).2
        ⟨0, ConData.fixc "a" [0, 0]⟩ 5 = [] :=
  ⟨rfl, rfl⟩

/-- Claim C9 (amended): every `DistanceConstraint` and `AngleConstraint`
accepted by `add_constraint` is subscribed by the problem, and a later
`set_parameter(value)` on it makes the problem re-emit
`("set_parameter", (constraint, value))`; an accepted `FixConstraint` is
not subscribed, so its parameter changes are not re-emitted. -/
theorem dist_ang_subscribed_and_reemitted (s : PState) (cid : Nat) (dat : ConData) (value : ℝ)
    (hk : (isDist dat || isAng dat) = true)
    (hok : (applyOp s (POp.addCon ⟨cid, dat⟩)).1 = none) :
    ((applyOp s (POp.addCon ⟨cid, dat⟩)).2.subscribed.contains cid = true) ∧
      reemitted (applyOp s (POp.addCon ⟨cid, dat⟩)).2 ⟨cid, dat⟩ value = [(cid, value)] := by
  have hsub : (applyOp s (POp.addCon ⟨cid, dat⟩)).2.subscribed = s.subscribed ++ [cid] := by
    cases dat with
    | dist a b dd =>
        by_cases hav : allVarsKnown s (ConData.dist a b dd) = true
        · cases hp : get_distance s.cons a b with
          | error e => simp [applyOp, hav, hp] at hok
          | ok o =>
              cases o with
              | none => simp [applyOp, hav, hp]
              | some x => simp [applyOp, hav, hp] at hok
        · simp [applyOp, Bool.eq_false_iff.2 hav] at hok
    | ang a b c th =>
        by_cases hav : allVarsKnown s (ConData.ang a b c th) = true
        · cases hp : get_angle s.cons a b c with
          | error e => simp [applyOp, hav, hp] at hok
          | ok o =>
              cases o with
              | none => simp [applyOp, hav, hp]
              | some x => simp [applyOp, hav, hp] at hok
        · simp [applyOp, Bool.eq_false_iff.2 hav] at hok
    | fixc v p => simp [isDist, isAng] at hk
    | sel vs => simp [isDist, isAng] at hk
    | unsup vs => simp [isDist, isAng] at hk
  have hpar : isParametric dat = true := by
    cases dat with
    | dist a b dd => rfl
    | ang a b c th => rfl
    | fixc v p => rfl
    | sel vs => simp [isDist, isAng] at hk
    | unsup vs => simp [isDist, isAng] at hk
  have hcont : (applyOp s (POp.addCon ⟨cid, dat⟩)).2.subscribed.contains cid = true := by
    rw [hsub]
    exact List.elem_iff.2 (List.mem_append_right _ (List.mem_singleton.2 rfl))
  refine ⟨hcont, ?_⟩
  simp [reemitted, hcont, hpar]
  exact List.elem_iff.1 hcont

/-- Claim C9 witness: a concrete accepted distance constraint is subscribed
and its parameter change is re-emitted. -/
theorem dist_ang_subscribed_and_reemitted_witness :
    ((applyOp ⟨[("a", [0, 0]), ("b", [0, 1])], ["a", "b"], [], []⟩
        (POp.addCon ⟨0, ConData.dist "a" "b" 1⟩)).2.subscribed.contains 0 = true) ∧
      reemitted (applyOp ⟨[("a", [0, 0]), ("b", [0, 1])], ["a", "b"], [], []⟩
          (POp.addCon ⟨0, ConData.dist "a" "b" 1⟩)).2
        ⟨0, ConData.dist "a" "b" 1⟩ 2 = [(0, 2)] :=
  dist_ang_subscribed_and_reemitted ⟨[("a", [0, 0]), ("b", [0, 1])], ["a", "b"], [], []⟩
    0 (ConData.dist "a" "b" 1) 2 (by decide) (by decide)

/-- A key of the solver identity map `self._map`.  The Python dict mixes
variable names, constraint objects and cluster objects as keys; the forward
keys (variables and constraints, disjoint types) are embedded as `MKey` and
the reverse keys (cluster objects) as integer handles. -/
inductive MKey : Type
  | var (v : String)
  | con (cid : Nat)
deriving DecidableEq

/-- The constraint classes as seen by the solver dispatch. -/
inductive CKind : Type
  | distk
  | angk
  | fixk
  | selk
  | otherk
deriving DecidableEq

/-- The constraint-graph events `GeometricSolver.receive_notify` dispatches
on (source lines 350-363). -/
inductive SEvent : Type
  | addVar (v : String)
  | remVar (v : String)
  | addCon (cid : Nat) (k : CKind)
  | remCon (cid : Nat) (k : CKind)
deriving DecidableEq

/-- The solver state relevant to the identity map: a fresh-cluster counter
(Python allocates a fresh `Rigid`/`Hedgehog` object per add), the forward
map entries, the reverse map entries, and the clusters held by the
`ClusterSolver`. -/
structure SState : Type where
  nextCl : Nat
  fwd : List (MKey × Nat)
  rev : List (Nat × MKey)
  dr : List Nat
deriving DecidableEq

/-- One event handled by `GeometricSolver._add_variable`, `_rem_variable`,
`_add_constraint` and `_rem_constraint` (source lines 381-443), restricted
to its effect on `_map` and on the cluster set.  `_rem_variable` and
`_rem_constraint` delete only the forward entry (`del self._map[var]` /
`del self._map[con]`), leaving the cluster-to-key entry in place.  The
fix branch of `_add_constraint` / `_rem_constraint` never touches `_map`
(its own failures are the subject of claim C3), and selection or foreign
constraints fall into the `pass` branch. -/
def step (s : SState) (e : SEvent) : SState :=
  match e with
  | .addVar v =>
      if (s.fwd.lookup (MKey.var v)).isSome then s
      else
        { nextCl := s.nextCl + 1,
          fwd := upd (MKey.var v) s.nextCl s.fwd,
          rev := upd s.nextCl (MKey.var v) s.rev,
          dr := s.dr ++ [s.nextCl] }
  | .remVar v =>
      match s.fwd.lookup (MKey.var v) with
      | some cl =>
          { s with dr := s.dr.filter (fun x => !(x == cl)),
                   fwd := s.fwd.filter (fun p => !(p.1 == MKey.var v)) }
      | none => s
  | .addCon cid k =>
      match k with
      | .distk =>
          { nextCl := s.nextCl + 1,
            fwd := upd (MKey.con cid) s.nextCl s.fwd,
            rev := upd s.nextCl (MKey.con cid) s.rev,
            dr := s.dr ++ [s.nextCl] }
      | .angk =>
          { nextCl := s.nextCl + 1,
            fwd := upd (MKey.con cid) s.nextCl s.fwd,
            rev := upd s.nextCl (MKey.con cid) s.rev,
            dr := s.dr ++ [s.nextCl] }
      | _ => s
  | .remCon cid k =>
      match k with
      | .fixk => s
      | _ =>
          match s.fwd.lookup (MKey.con cid) with
          | some cl =>
              { s with dr := s.dr.filter (fun x => !(x == cl)),
                       fwd := s.fwd.filter (fun p => !(p.1 == MKey.con cid)) }
          | none => s

/-- The solver state reached from a fresh solver after a sequence of
constraint-graph events. -/
def run (es : List SEvent) : SState :=
  es.foldl step ⟨0, [], [], []⟩

/-- The induction invariant for the identity map: every forward entry has
its reverse entry, and every stored cluster handle is below the freshness
counter. -/
def MapInv (s : SState) : Prop :=
  (∀ p ∈ s.fwd, (p.2, p.1) ∈ s.rev) ∧ (∀ q ∈ s.rev, q.1 < s.nextCl) ∧
    (∀ p ∈ s.fwd, p.2 < s.nextCl)

/-- Entries of a dict update are the new pair or old entries. -/
theorem mem_upd {α β : Type} [BEq α] {k : α} {v : β} {l : List (α × β)} {x : α × β}
    (h : x ∈ upd k v l) : x = (k, v) ∨ x ∈ l := by
  rcases List.mem_cons.1 h with h | h
  · exact Or.inl h
  · exact Or.inr (List.mem_of_mem_filter h)

/-- An old entry whose key differs from the updated key survives a dict
update. -/
theorem mem_upd_of_mem {β : Type} {k : Nat} {v : β} {l : List (Nat × β)} {x : Nat × β}
    (h : x ∈ l) (hne : x.1 ≠ k) : x ∈ upd k v l := by
  apply List.mem_cons_of_mem
  refine List.mem_filter.2 ⟨h, ?_⟩
  simp [hne]

/-- The map invariant is preserved by every event. -/
theorem mapInv_step (s : SState) (e : SEvent) (h : MapInv s) : MapInv (step s e) := by
  obtain ⟨h1, h2, h3⟩ := h
  have hfresh : ∀ {fwd' : List (MKey × Nat)} {rev' : List (Nat × MKey)} {key : MKey},
      fwd' = upd key s.nextCl s.fwd → rev' = upd s.nextCl key s.rev →
      MapInv ⟨s.nextCl + 1, fwd', rev', s.dr ++ [s.nextCl]⟩ := by
    intro fwd' rev' key hf hr
    subst hf; subst hr
    refine ⟨?_, ?_, ?_⟩
    · intro p hp
      rcases mem_upd hp with rfl | hp'
      · exact List.mem_cons_self _ _
      · exact mem_upd_of_mem (h1 p hp') (Nat.ne_of_lt (h3 p hp'))
    · intro q hq
      rcases mem_upd hq with rfl | hq'
      · exact Nat.lt_succ_self _
      · exact Nat.lt_succ_of_lt (h2 q hq')
    · intro p hp
      rcases mem_upd hp with rfl | hp'
      · exact Nat.lt_succ_self _
      · exact Nat.lt_succ_of_lt (h3 p hp')
  have hshrink : ∀ (pred : MKey × Nat → Bool) (dr' : List Nat),
      MapInv ⟨s.nextCl, s.fwd.filter pred, s.rev, dr'⟩ := by
    intro pred dr'
    exact ⟨fun p hp => h1 p (List.mem_of_mem_filter hp), h2,
      fun p hp => h3 p (List.mem_of_mem_filter hp)⟩
  cases e with
  | addVar v =>
      by_cases hv : (s.fwd.lookup (MKey.var v)).isSome = true
      · simpa [step, hv] using ⟨h1, h2, h3⟩
      · simp only [step, Bool.eq_false_iff.2 hv, if_neg]
        simp only [Bool.false_eq_true, if_false]
        exact hfresh rfl rfl
  | remVar v =>
      cases hl : s.fwd.lookup (MKey.var v) with
      | some cl => simp only [step, hl]; exact hshrink _ _
      | none => simpa [step, hl] using ⟨h1, h2, h3⟩
  | addCon cid k =>
      cases k with
      | distk => simp only [step]; exact hfresh rfl rfl
      | angk => simp only [step]; exact hfresh rfl rfl
      | fixk => simpa [step] using ⟨h1, h2, h3⟩
      | selk => simpa [step] using ⟨h1, h2, h3⟩
      | otherk => simpa [step] using ⟨h1, h2, h3⟩
  | remCon cid k =>
      cases k with
      | fixk => simpa [step] using ⟨h1, h2, h3⟩
      | distk =>
          cases hl : s.fwd.lookup (MKey.con cid) with
          | some cl => simp only [step, hl]; exact hshrink _ _
          | none => simpa [step, hl] using ⟨h1, h2, h3⟩
      | angk =>
          cases hl : s.fwd.lookup (MKey.con cid) with
          | some cl => simp only [step, hl]; exact hshrink _ _
          | none => simpa [step, hl] using ⟨h1, h2, h3⟩
      | selk =>
          cases hl : s.fwd.lookup (MKey.con cid) with
          | some cl => simp only [step, hl]; exact hshrink _ _
          | none => simpa [step, hl] using ⟨h1, h2, h3⟩
      | otherk =>
          cases hl : s.fwd.lookup (MKey.con cid) with
          | some cl => simp only [step, hl]; exact hshrink _ _
          | none => simpa [step, hl] using ⟨h1, h2, h3⟩

/-- The map invariant holds after any event sequence. -/
theorem mapInv_run (es : List SEvent) : MapInv (run es) := by
  have hinit : MapInv ⟨0, [], [], []⟩ := by
    refine ⟨?_, ?_, ?_⟩ <;> intro p hp <;> cases hp
  have hgen : ∀ (l : List SEvent) (s : SState), MapInv s → MapInv (l.foldl step s) := by
    intro l
    induction l with
    | nil => intro s hs; exact hs
    | cons e rest ih => intro s hs; exact ih (step s e) (mapInv_step s e hs)
  exact hgen es ⟨0, [], [], []⟩ hinit

/-- Claim C2 counterexample: after adding and then removing variable `a`,
the removal deletes only the forward entry, so the reverse entry
(cluster 0 to variable `a`) dangles with no forward counterpart, whereas
the claim says no reverse entry dangles. -/
theorem map_reverse_entry_dangles :
    (0, MKey.var "a") ∈ (run [SEvent.addVar "a", SEvent.remVar "a"]).rev ∧
      ((MKey.var "a", 0) ∈ (run [SEvent.addVar "a", SEvent.remVar "a"]).fwd ↔ False) := by
  decide

/-- Claim C2 (amended): after any sequence of add/remove variable and
constraint events, every forward entry of the solver identity map
(variable-to-cluster or constraint-to-cluster) has its reverse entry; the
converse fails, since removals delete only the forward entry and leave the
reverse entry dangling. -/
theorem map_forward_entries_have_reverse (es : List SEvent) (k : MKey) (cl : Nat)
    (h : (k, cl) ∈ (run es).fwd) : (cl, k) ∈ (run es).rev :=
  (mapInv_run es).1 (k, cl) h

/-- Claim C2 witness: after adding variable `a`, the forward entry maps it
to cluster 0 and the reverse entry is present. -/
theorem map_forward_entries_have_reverse_witness :
    (MKey.var "a", 0) ∈ (run [SEvent.addVar "a"]).fwd ∧
      (0, MKey.var "a") ∈ (run [SEvent.addVar "a"]).rev :=
  ⟨by decide, map_forward_entries_have_reverse [SEvent.addVar "a"] (MKey.var "a") 0 (by decide)⟩

/-- The solver state read and written by the fix-constraint handling: the
problem dimension, the `fixvars` list, the optional `fixcluster`, and the
clusters held by the ClusterSolver (all clusters as integer handles). -/
structure FixState : Type where
  dimension : Nat
  fixvars : List Nat
  fixcluster : Option Nat
  dr : List Nat
deriving DecidableEq

/-- `GeometricSolver._update_fix` (source lines 493-503).  When
`self.fixcluster` is set, the body reads the bare name `fixcluster`, which
is neither a local nor a module-level name, so the call raises `NameError`;
when it is `None`, the body only prints a warning. -/
def updateFix (s : FixState) : Option String × FixState :=
  match s.fixcluster with
  | some _ => (some "NameError: global name fixcluster is not defined", s)
  | none => (none, s)

/-- The fix branch of `GeometricSolver._add_constraint` (source lines
414-422): remove any existing fixcluster from the ClusterSolver, append the
fixed variable's cluster, and once the count reaches the dimension build
and root a new fixcluster.  `self.get` does not exist on `GeometricSolver`
(and, modelled from the spec, the `notify.Listener` base class is plain
listener plumbing with no `get` either); it is modelled generously here as
the identity-map lookup, with the looked-up cluster supplied as `vcl`, so
that the later failures are reached.  The build branch evaluates the name
`Cluster`, which `geometric.py` never imports (only `Rigid` and `Hedgehog`
are imported from the `cluster` module), so it raises `NameError` before
any fixcluster is stored, added or rooted. -/
def addFixConstraint (s : FixState) (vcl : Nat) : Option String × FixState :=
  let s1 := match s.fixcluster with
    | some c => { s with dr := s.dr.filter (fun x => !(x == c)) }
    | none => s
  let s2 := { s1 with fixvars := s1.fixvars ++ [vcl] }
  if s.dimension ≤ s2.fixvars.length then
    (some "NameError: global name Cluster is not defined", s2)
  else updateFix s2

/-- The fix branch of `GeometricSolver._rem_constraint` (source lines
429-440), under the same generous modelling of `self.get`: below the
dimension the fixcluster is reset to `None`; at or above it the rebuild
evaluates the unimported name `Cluster` and raises `NameError`. -/
def remFixConstraint (s : FixState) (vcl : Nat) : Option String × FixState :=
  let s1 := match s.fixcluster with
    | some c => { s with dr := s.dr.filter (fun x => !(x == c)) }
    | none => s
  let s2 := { s1 with fixvars := s1.fixvars.erase vcl }
  if s2.fixvars.length < s.dimension then (none, { s2 with fixcluster := none })
  else (some "NameError: global name Cluster is not defined", s2)

/-- Claim C3: as soon as the number of fixed variables reaches the problem
dimension, adding a `FixConstraint` raises instead of building and rooting
the fixcluster; no add ever stores a fixcluster; and rebuilding the
configuration of an existing fixcluster (`_update_fix`) raises as well, so
the claimed build-root-rebuild behaviour never happens. -/
theorem fix_paths_raise (s : FixState) (vcl : Nat) :
    (s.dimension ≤ s.fixvars.length + 1 → (addFixConstraint s vcl).1.isSome = true) ∧
      (addFixConstraint s vcl).2.fixcluster = s.fixcluster ∧
      (s.fixcluster.isSome = true → (updateFix s).1.isSome = true) := by
  by_cases hdim : s.dimension ≤ s.fixvars.length + 1
  · cases hfc : s.fixcluster with
    | none =>
        refine ⟨fun _ => ?_, ?_, fun hsome => ?_⟩
        · simp [addFixConstraint, hfc, List.length_append, hdim]
        · simp [addFixConstraint, hfc, List.length_append, hdim]
        · simp at hsome
    | some c =>
        refine ⟨fun _ => ?_, ?_, fun _ => ?_⟩
        · simp [addFixConstraint, hfc, List.length_append, hdim]
        · simp [addFixConstraint, hfc, List.length_append, hdim]
        · simp [updateFix, hfc]
  · have hlt : s.fixvars.length + 1 < s.dimension := by omega
    cases hfc : s.fixcluster with
    | none =>
        refine ⟨fun hc => absurd hc hdim, ?_, fun hsome => ?_⟩
        · simp [addFixConstraint, hfc, List.length_append, updateFix, Nat.not_le.2 hlt]
        · simp at hsome
    | some c =>
        refine ⟨fun hc => absurd hc hdim, ?_, fun _ => ?_⟩
        · simp [addFixConstraint, hfc, List.length_append, updateFix, Nat.not_le.2 hlt]
        · simp [updateFix, hfc]

/-- Claim C3 witness: a 2D solver with one fixed variable; the next
`FixConstraint` add raises, and updating a present fixcluster raises. -/
theorem fix_paths_raise_witness :
    ((addFixConstraint ⟨2, [0], some 7, [7, 0]⟩ 1).1.isSome = true) ∧
      ((updateFix ⟨2, [0], some 7, [7, 0]⟩).1.isSome = true) :=
  ⟨(fix_paths_raise ⟨2, [0], some 7, [7, 0]⟩ 1).1 (by decide),
    (fix_paths_raise ⟨2, [0], some 7, [7, 0]⟩ 1).2.2 (by decide)⟩

/-- `GeometricCluster.OK` (source line 532). -/
def clusterOK : String := "well constrained"

/-- `GeometricCluster.I_OVER` (source line 533, spelling as in the source). -/
def clusterIOver : String := "incicental over-constrained"

/-- `GeometricCluster.I_UNDER` (source line 534). -/
def clusterIUnder : String := "incidental under-constrained"

/-- `GeometricCluster.S_OVER` (source line 535, spelling as in the source). -/
def clusterSOver : String := "structral over-constrained"

/-- `GeometricCluster.S_UNDER` (source line 536). -/
def clusterSUnder : String := "structural under-constrained"

/-- `GeometricCluster.UNSOLVED` (source line 537). -/
def clusterUnsolved : String := "unsolved"

/-- A configuration held by the ClusterSolver for a cluster: its
variable-to-point map and its underconstrained mark (spec §4.3/§6.2). -/
structure DrConf : Type where
  map : Sol
  underconstrained : Bool

/-- A cluster as seen through the ClusterSolver interface (spec §6.2):
its identity, whether it is a `Rigid`, its variables, and its
overconstrained mark. -/
structure DrCluster : Type where
  cid : Nat
  rigid : Bool
  vars : List String
  overconstrained : Bool

/-- A merge method of the ClusterSolver (spec §6.2): inputs, outputs and
whether it is a `PrototypeMethod`. -/
structure DrMethod : Type where
  inputs : List DrCluster
  outputs : List DrCluster
  proto : Bool

/-- The ClusterSolver state `get_result` queries (modelled from the spec
§6.2): `rigids()`, `get(cluster)` (`none` for no solution set), `methods()`
and `top_level()`. -/
structure DrState : Type where
  rigidList : List DrCluster
  confs : List (Nat × Option (List DrConf))
  methods : List DrMethod
  topLevel : List DrCluster

/-- A `GeometricCluster` object (source lines 539-544): `__init__` sets
`variables`, `solutions`, `subs` empty and `flag` to OK.  Sub-clusters are
stored as references, embedded as cluster handles.  `flags` stands for the
attribute of that name created only by the assignment on source line 338;
it is absent (`none`) on a fresh object. -/
structure GCR : Type where
  vars : List String
  solutions : List Sol
  subs : List Nat
  flag : String
  flags : Option String

/-- The per-rigid loop of `get_result` (source lines 284-308): collect the
variables, copy the solutions and their underconstrained marks, and compute
the flag. -/
def buildGC (dr : DrState) (dc : DrCluster) : GCR :=
  let solsOpt := (dr.confs.lookup dc.cid).join
  let solList := match solsOpt with
    | none => []
    | some l => l.map DrConf.map
  let under := match solsOpt with
    | none => false
    | some l => l.any DrConf.underconstrained
  let flag := if dc.overconstrained then clusterSOver
    else if solList.length = 0 then clusterIOver
    else if under then clusterIUnder
    else clusterOK
  ⟨dc.vars, solList, [], flag, none⟩

/-- `parent.subs.append(map[inp])` on the cluster keyed `pid`. -/
def appendSub (l : List (Nat × GCR)) (pid child : Nat) : List (Nat × GCR) :=
  l.map (fun p => if p.1 == pid then (p.1, { p.2 with subs := p.2.subs ++ [child] }) else p)

/-- `geoout.subs = list(geoin.subs)` on the cluster keyed `pid`. -/
def setSubs (l : List (Nat × GCR)) (pid : Nat) (newsubs : List Nat) : List (Nat × GCR) :=
  l.map (fun p => if p.1 == pid then (p.1, { p.2 with subs := newsubs }) else p)

/-- The subcluster loop of `get_result` (source lines 311-318): every Rigid
input of a method becomes a child of every Rigid output. -/
def linkStep (acc : List (Nat × GCR)) (m : DrMethod) : List (Nat × GCR) :=
  m.outputs.foldl (fun a out =>
    if out.rigid then
      m.inputs.foldl (fun a2 inp => if inp.rigid then appendSub a2 out.cid inp.cid else a2) a
    else a) acc

/-- The prototype-method loop of `get_result` (source lines 321-327): the
output cluster of a `PrototypeMethod` inherits the current children of its
input cluster. -/
def protoStep (acc : List (Nat × GCR)) (m : DrMethod) : List (Nat × GCR) :=
  if m.proto then
    match m.inputs, m.outputs with
    | inc :: _, outc :: _ =>
        setSubs acc outc.cid (((acc.lookup inc.cid).map GCR.subs).getD [])
    | _, _ => acc
  else acc

/-- `GeometricSolver.get_result` (source lines 280-348).  In the top-level
reduction with zero Rigids, the source assigns `result.flags` (line 338), a
fresh attribute, so the `flag` attribute read by clients keeps its
`__init__` value OK. -/
def getResult (dr : DrState) : GCR :=
  let gc0 := dr.rigidList.map (fun dc => (dc.cid, buildGC dr dc))
  let gc1 := dr.methods.foldl linkStep gc0
  let gc2 := dr.methods.foldl protoStep gc1
  match dr.topLevel.filter (fun c => c.rigid) with
  | [] => ⟨[], [], [], clusterOK, some clusterUnsolved⟩
  | [r] => (gc2.lookup r.cid).getD ⟨[], [], [], clusterOK, none⟩
  | rs => ⟨[], [], rs.map DrCluster.cid, clusterSUnder, none⟩

/-- Claim C5: with zero Rigids at the ClusterSolver top level (in
particular the empty problem), `get_result` returns a cluster with empty
variables, solutions and subs whose `flag` is OK ("well constrained"), not
UNSOLVED: line 338 of the source assigns the misspelled attribute `flags`,
so only that foreign attribute carries "unsolved". -/
theorem get_result_empty_flag_typo (dr : DrState)
    (h : dr.topLevel.filter (fun c => c.rigid) = []) :
    getResult dr = ⟨[], [], [], clusterOK, some clusterUnsolved⟩ := by
  simp [getResult, h]

/-- Claim C5 witness: the empty ClusterSolver state. -/
theorem get_result_empty_flag_typo_witness :
    getResult ⟨[], [], [], []⟩ = ⟨[], [], [], clusterOK, some clusterUnsolved⟩ :=
  get_result_empty_flag_typo ⟨[], [], [], []⟩ rfl

/-- The spec-side semantics of `FixConstraint.satisfied` (spec §3 and §4.2,
restated by the claim): componentwise tolerance comparison over the first
`dimension` coordinates. -/
def specFixSatisfied (dim : Nat) (v : String) (p : Point) (sol : Sol) : Prop :=
  ∀ i < dim, tol_eq ((lk sol v).getD i 0) (p.getD i 0)

/-- Claim C6: in a 3D problem, `FixConstraint.satisfied` as coded accepts a
point whose third coordinate differs arbitrarily from the fix parameter
(it compares coordinates 0 and 1 only), while the claimed semantics
(componentwise over the first `dimension` = 3 coordinates) rejects it. -/
theorem fix_satisfied_ignores_third_coordinate :
    fixSatisfied "v" [1, 2, 3] [("v", [1, 2, 99])] ∧
      (specFixSatisfied 3 "v" [1, 2, 3] [("v", [1, 2, 99])] ↔ False) := by
  refine ⟨⟨?_, ?_⟩, ?_, fun h => h.elim⟩
  · show tol_eq ((lk [("v", [1, 2, 99])] "v").getD 0 0) (([1, 2, 3] : Point).getD 0 0)
    simp only [lk, List.lookup, tol_eq]
    norm_num
  · show tol_eq ((lk [("v", [1, 2, 99])] "v").getD 1 0) (([1, 2, 3] : Point).getD 1 0)
    simp only [lk, List.lookup, tol_eq]
    norm_num
  · intro h
    have h2 := h 2 (by norm_num)
    simp only [lk, List.lookup, tol_eq] at h2
    norm_num at h2

/-- Tolerance comparison is reflexive. -/
theorem tol_eq_refl (x : ℝ) : tol_eq x x := by
  unfold tol_eq
  rw [sub_self, abs_zero]
  norm_num

/-- Lookup of a dict entry just written. -/
theorem lk_upd_same (v : String) (p : Point) (sol : Sol) : lk (upd v p sol) v = p := by
  simp [lk, upd, List.lookup]

/-- Lookup after filtering out a different key is unchanged. -/
theorem lookup_filter_ne {β : Type} (sol : List (String × β)) (v w : String) (h : w ≠ v) :
    (sol.filter (fun p => !(p.1 == v))).lookup w = sol.lookup w := by
  induction sol with
  | nil => rfl
  | cons x xs ih =>
      obtain ⟨k, b⟩ := x
      by_cases hk : k = v
      · subst hk
        have hw : (w == k) = false := beq_eq_false_iff_ne.2 h
        simp [List.filter_cons, beq_self_eq_true, List.lookup_cons, hw, ih]
      · have hkv : (k == v) = false := beq_eq_false_iff_ne.2 hk
        by_cases hwk : w = k
        · subst hwk
          simp [List.filter_cons, hkv, List.lookup_cons, beq_self_eq_true]
        · have hw : (w == k) = false := beq_eq_false_iff_ne.2 hwk
          simp [List.filter_cons, hkv, List.lookup_cons, hw, ih]

/-- Lookup of a dict under an update with a different key. -/
theorem lk_upd_ne (v w : String) (p : Point) (sol : Sol) (h : w ≠ v) :
    lk (upd v p sol) w = lk sol w := by
  simp only [lk, upd, List.lookup, beq_eq_false_iff_ne.2 h]
  rw [lookup_filter_ne sol v w h]

/-- The Euclidean distance from the origin to `(dd, 0)` for `0 ≤ dd`. -/
theorem distance_2p_axis2 (dd : ℝ) (h : 0 ≤ dd) : distance_2p [0, 0] [dd, 0] = dd := by
  unfold distance_2p vlen
  have h1 : vsub [0, 0] [dd, 0] = [0 - dd, 0 - 0] := rfl
  rw [h1]
  have h2 : dotp [0 - dd, 0 - 0] [0 - dd, 0 - 0] = dd ^ 2 := by
    simp [dotp]
    ring
  rw [h2, Real.sqrt_sq h]

/-- The Euclidean distance from the origin to `(dd, 0, 0)` for `0 ≤ dd`. -/
theorem distance_2p_axis3 (dd : ℝ) (h : 0 ≤ dd) : distance_2p [0, 0, 0] [dd, 0, 0] = dd := by
  unfold distance_2p vlen
  have h1 : vsub [0, 0, 0] [dd, 0, 0] = [0 - dd, 0 - 0, 0 - 0] := rfl
  rw [h1]
  have h2 : dotp [0 - dd, 0 - 0, 0 - 0] [0 - dd, 0 - 0, 0 - 0] = dd ^ 2 := by
    simp [dotp]
    ring
  rw [h2, Real.sqrt_sq h]

/-- The 2D measured angle of the synthesized angle configuration is the
parameter itself, for parameters in the principal range. -/
theorem angle_3p_synth2 (th : ℝ) (h : th ∈ Set.Ioc (-Real.pi) Real.pi) :
    angle_3p [1, 0] [0, 0] [Real.cos th, Real.sin th] = some th := by
  unfold angle_3p
  have hu : vsub [1, 0] [0, 0] = [1 - 0, 0 - 0] := rfl
  have hv : vsub [Real.cos th, Real.sin th] [0, 0] = [Real.cos th - 0, Real.sin th - 0] := rfl
  rw [hu, hv]
  have huu : dotp [(1 : ℝ) - 0, 0 - 0] [1 - 0, 0 - 0] = 1 := by
    simp [dotp]
  have hvv : dotp [Real.cos th - 0, Real.sin th - 0] [Real.cos th - 0, Real.sin th - 0] = 1 := by
    simp only [dotp, List.zipWith, List.sum_cons, List.sum_nil, sub_zero, add_zero]
    have : Real.cos th * Real.cos th + Real.sin th * Real.sin th =
        Real.sin th ^ 2 + Real.cos th ^ 2 := by ring
    rw [this, Real.sin_sq_add_cos_sq]
  simp only [huu, hvv]
  rw [if_neg (by norm_num)]
  rw [if_neg (by simp)]
  have hcross : cross2 [(1 : ℝ) - 0, 0 - 0] [Real.cos th - 0, Real.sin th - 0] = Real.sin th := by
    simp [cross2]
  have hdot : dotp [(1 : ℝ) - 0, 0 - 0] [Real.cos th - 0, Real.sin th - 0] = Real.cos th := by
    simp [dotp]
  rw [hcross, hdot]
  unfold atan2
  rw [Complex.ofReal_cos, Complex.ofReal_sin]
  exact congrArg some (Complex.arg_cos_add_sin_mul_I h)

/-- The 3D measured angle of the synthesized angle configuration is the
absolute value of the parameter, for parameters in `[-pi, pi]`. -/
theorem angle_3p_synth3 (th : ℝ) (h : th ∈ Set.Icc (-Real.pi) Real.pi) :
    angle_3p [1, 0, 0] [0, 0, 0] [Real.cos th, Real.sin th, 0] = some |th| := by
  unfold angle_3p
  have hu : vsub [1, 0, 0] [0, 0, 0] = [1 - 0, 0 - 0, 0 - 0] := rfl
  have hv : vsub [Real.cos th, Real.sin th, 0] [0, 0, 0] =
      [Real.cos th - 0, Real.sin th - 0, 0 - 0] := rfl
  rw [hu, hv]
  have huu : dotp [(1 : ℝ) - 0, 0 - 0, 0 - 0] [1 - 0, 0 - 0, 0 - 0] = 1 := by
    simp [dotp]
  have hvv : dotp [Real.cos th - 0, Real.sin th - 0, 0 - 0]
      [Real.cos th - 0, Real.sin th - 0, 0 - 0] = 1 := by
    simp only [dotp, List.zipWith, List.sum_cons, List.sum_nil, sub_zero, add_zero]
    have : Real.cos th * Real.cos th + (Real.sin th * Real.sin th + 0 * 0) =
        Real.sin th ^ 2 + Real.cos th ^ 2 := by ring
    rw [this, Real.sin_sq_add_cos_sq]
  simp only [vlen, huu, hvv]
  rw [if_neg (by norm_num)]
  rw [if_pos (by simp)]
  have hdot : dotp [(1 : ℝ) - 0, 0 - 0, 0 - 0] [Real.cos th - 0, Real.sin th - 0, 0 - 0] =
      Real.cos th := by
    simp [dotp]
  rw [hdot]
  rw [Real.sqrt_one, mul_one, div_one]
  refine congrArg some ?_
  rcases le_or_lt 0 th with hpos | hneg
  · rw [abs_of_nonneg hpos, Real.arccos_cos hpos h.2]
  · rw [abs_of_neg hneg, ← Real.cos_neg, Real.arccos_cos (by linarith) (by linarith [h.1])]

/-- The dimension padding in `_update_constraint` (source lines 459-463 and
476-478): a third zero coordinate is appended when the dimension is 3. -/
def pad (dim : Nat) (p : Point) : Point := if dim = 3 then p ++ [0] else p

/-- The reference configuration `GeometricSolver._update_constraint`
synthesizes and pushes (source lines 447-481): for an angle constraint,
`b` at the origin, `a` at `(1,0[,0])` and `c` at `(cos th, sin th[,0])`;
for a distance constraint, `a` at the origin and `b` at `(d,0[,0])`.  The
Python dict literal is built key by key, later keys shadowing earlier
ones.  The other constraint kinds push no configuration from here. -/
noncomputable def synthConf (dim : Nat) (d : ConData) : Sol :=
  match d with
  | .ang a b c th =>
      upd c (pad dim [Real.cos th, Real.sin th])
        (upd b (pad dim [0, 0]) (upd a (pad dim [1, 0]) []))
  | .dist a b dd => upd b (pad dim [dd, 0]) (upd a (pad dim [0, 0]) [])
  | _ => []

/-- The parameter ranges under which the synthesized configuration does
satisfy its constraint: a nonnegative distance over two distinct
variables, or an angle over three distinct variables whose parameter lies
in the range `angle_3p` measures ((-pi, pi] in 2D, [-pi, pi] in 3D). -/
def GoodParams (dim : Nat) : ConData → Prop
  | .dist a b dd => a ≠ b ∧ 0 ≤ dd
  | .ang a b c th => a ≠ b ∧ b ≠ c ∧ a ≠ c ∧
      (if dim = 3 then th ∈ Set.Icc (-Real.pi) Real.pi else th ∈ Set.Ioc (-Real.pi) Real.pi)
  | _ => False

/-- Claim C4 counterexample: for `DistanceConstraint("a","b",-1)` the
synthesized configuration places `b` at `(-1, 0)`, whose distance from the
origin is `1`, not `-1`, so the configuration does not satisfy the
constraint and the assertion after synthesis fails, whereas the claim says
it never fails. -/
theorem synth_config_violates_negative_distance :
    Satisfied (fun _ _ => False) (ConData.dist "a" "b" (-1))
        (synthConf 2 (ConData.dist "a" "b" (-1))) ↔ False := by
  constructor
  · intro hsat
    have h : distSatisfied "a" "b" (-1) (synthConf 2 (ConData.dist "a" "b" (-1))) := hsat
    unfold distSatisfied synthConf at h
    rw [lk_upd_ne "b" "a" (pad 2 [-1, 0]) (upd "a" (pad 2 [0, 0]) []) (by decide),
        lk_upd_same "a" (pad 2 [0, 0]) [],
        lk_upd_same "b" (pad 2 [-1, 0]) (upd "a" (pad 2 [0, 0]) [])] at h
    simp only [pad, if_neg (show ¬(2 = 3) by norm_num)] at h
    have hd : distance_2p [(0 : ℝ), 0] [(-1 : ℝ), 0] = 1 := by
      unfold distance_2p vlen
      have h1 : vsub [(0 : ℝ), 0] [(-1 : ℝ), 0] = [0 - (-1), 0 - 0] := rfl
      rw [h1]
      have h2 : dotp [(0 : ℝ) - (-1), 0 - 0] [0 - (-1), 0 - 0] = 1 := by
        simp [dotp]
      rw [h2, Real.sqrt_one]
    rw [hd] at h
    unfold tol_eq at h
    norm_num at h
  · exact False.elim

/-- Claim C4 (amended): the configuration `_update_constraint` synthesizes
satisfies the originating constraint, so the assertion passes, whenever the
constraint variables are distinct and the parameter is in range: a
nonnegative distance, or an angle in `(-pi, pi]` (2D) respectively
`[-pi, pi]` (3D); outside these ranges (for example the distance -1) the
assertion fails. -/
theorem synth_config_satisfies_in_range (es : ConData → Sol → Prop) (dim : Nat) (d : ConData)
    (hdim : dim = 2 ∨ dim = 3) (hgood : GoodParams dim d) :
    Satisfied es d (synthConf dim d) := by
  cases d with
  | dist a b dd =>
      obtain ⟨hab, hdd⟩ := hgood
      show distSatisfied a b dd (synthConf dim (ConData.dist a b dd))
      unfold distSatisfied synthConf
      rw [lk_upd_ne b a (pad dim [dd, 0]) (upd a (pad dim [0, 0]) []) hab,
          lk_upd_same a (pad dim [0, 0]) [],
          lk_upd_same b (pad dim [dd, 0]) (upd a (pad dim [0, 0]) [])]
      rcases hdim with rfl | rfl
      · simp only [pad, if_neg (show ¬(2 = 3) by norm_num)]
        rw [distance_2p_axis2 dd hdd]
        exact tol_eq_refl dd
      · have hpad : ∀ p : Point, pad 3 p = p ++ [0] := fun p => if_pos rfl
        rw [hpad, hpad]
        have e1 : ([0, 0] : Point) ++ [0] = [0, 0, 0] := rfl
        have e2 : ([dd, 0] : Point) ++ [0] = [dd, 0, 0] := rfl
        rw [e1, e2, distance_2p_axis3 dd hdd]
        exact tol_eq_refl dd
  | ang a b c th =>
      obtain ⟨hab, hbc, hac, hrange⟩ := hgood
      show angSatisfied a b c th (synthConf dim (ConData.ang a b c th))
      unfold angSatisfied synthConf
      rw [lk_upd_ne c a (pad dim [Real.cos th, Real.sin th])
            (upd b (pad dim [0, 0]) (upd a (pad dim [1, 0]) [])) hac,
          lk_upd_ne b a (pad dim [0, 0]) (upd a (pad dim [1, 0]) []) hab,
          lk_upd_same a (pad dim [1, 0]) [],
          lk_upd_ne c b (pad dim [Real.cos th, Real.sin th])
            (upd b (pad dim [0, 0]) (upd a (pad dim [1, 0]) [])) hbc,
          lk_upd_same b (pad dim [0, 0]) (upd a (pad dim [1, 0]) []),
          lk_upd_same c (pad dim [Real.cos th, Real.sin th])
            (upd b (pad dim [0, 0]) (upd a (pad dim [1, 0]) []))]
      rcases hdim with rfl | rfl
      · rw [if_neg (show ¬(2 = 3) by norm_num)] at hrange
        simp only [pad, if_neg (show ¬(2 = 3) by norm_num)]
        rw [angle_3p_synth2 th hrange]
        show tol_eq th (if 3 ≤ ([1, 0] : Point).length then |th| else th)
        rw [if_neg (by simp)]
        exact tol_eq_refl th
      · rw [if_pos rfl] at hrange
        have hpad : ∀ p : Point, pad 3 p = p ++ [0] := fun p => if_pos rfl
        rw [hpad, hpad, hpad]
        have e1 : ([1, 0] : Point) ++ [0] = [1, 0, 0] := rfl
        have e2 : ([0, 0] : Point) ++ [0] = [0, 0, 0] := rfl
        have e3 : ([Real.cos th, Real.sin th] : Point) ++ [0] =
            [Real.cos th, Real.sin th, 0] := rfl
        rw [e1, e2, e3, angle_3p_synth3 th hrange]
        show tol_eq |th| (if 3 ≤ ([1, 0, 0] : Point).length then |th| else th)
        rw [if_pos (by simp)]
        exact tol_eq_refl |th|
  | fixc v p => exact hgood.elim
  | sel vs => exact hgood.elim
  | unsup vs => exact hgood.elim

/-- Claim C4 witness: the synthesized configuration of
`DistanceConstraint("a","b",1)` in 2D satisfies the constraint. -/
theorem synth_config_satisfies_in_range_witness :
    GoodParams 2 (ConData.dist "a" "b" 1) ∧
      Satisfied (fun _ _ => False) (ConData.dist "a" "b" 1)
        (synthConf 2 (ConData.dist "a" "b" 1)) :=
  ⟨⟨by decide, zero_le_one⟩,
    synth_config_satisfies_in_range (fun _ _ => False) 2 (ConData.dist "a" "b" 1)
      (Or.inl rfl) ⟨by decide, zero_le_one⟩⟩

end Geosolver
